import Mathlib

/-!
# Verification of the LUAD-Spatial core (dataset adapters and mask engine)

A shallow embedding of the core of the LUAD-Spatial-Xenium repository:
the format resolver (`src/core/data_factory.py`), the tiered Xenium
adapter (`src/core/xenium_data.py`), the PhenoCycler / OME-TIFF channel
loaders, and the processor layer (`src/processors/image_processor.py`,
`circle_detector.py`, `mask_generator.py`).

Modelling conventions:
* Pixel values are `Nat`; machine-integer casts are made explicit
  (`% 256` models the C truncating cast that `ndarray.astype(np.uint8)`
  performs after float truncation).
* Exact float operations on integers (division by a power of two,
  comparison of an integer square root against an integer bound for
  moderate magnitudes) are replaced by their exact integer counterparts.
* Opaque third-party algorithms (OpenCV Otsu threshold selection,
  adaptive local threshold, structuring-element shape, contour
  extraction, Hough circle search, float square root) are parameters:
  theorems quantify over every possible behaviour of those algorithms.
* Fallible Python code is modelled with `Except`/`Option`; emitted
  warnings are returned explicitly as a list of strings.
-/

namespace LuadSpatial

/-! ## Pixel data model -/

/-- The numpy dtypes the processors distinguish (`uint8`, `uint16`, `uint32`). -/
inductive Dtype
  | u8
  | u16
  | u32
  deriving DecidableEq

/-- A 2-D raster: height, width, dtype and a total pixel function.
Only indices `i < h`, `j < w` are meaningful; operations never read
outside that range (this is what the cropping lemmas make precise). -/
structure Image where
  h : Nat
  w : Nat
  dtype : Dtype
  pix : Nat → Nat → Nat

/-! ## `ImageProcessor.normalize` (bit-depth normalization)

From `src/processors/image_processor.py`, lines 128-133:
`(image / 256).astype(np.uint8)` for `uint16 -> uint8` and
`(image / 65536).astype(np.uint8)` for `uint32 -> uint8`.
The float division by a power of two is exact for every value of the
source bit depth, so the float truncation is integer floor division;
the `astype(np.uint8)` cast is the C truncating conversion, modelled as
reduction mod 2^8. -/

/-- Per-pixel semantics of the `uint16 -> uint8` branch of
`ImageProcessor.normalize`: exact floor division by 256 followed by the
truncating 8-bit cast. -/
def normalize_u16_to_u8 (v : Nat) : Nat := (v / 256) % 256

/-- Per-pixel semantics of the `uint32 -> uint8` branch of
`ImageProcessor.normalize`: exact floor division by 65536 followed by the
truncating 8-bit cast (which wraps once `v / 65536` exceeds 255). -/
def normalize_u32_to_u8 (v : Nat) : Nat := (v / 65536) % 256

/-- Image-level normalization to `uint8`, covering the two scaling
branches of `ImageProcessor.normalize` (the `uint8` case is the identity
early-return of the function). -/
def normalize_to_u8 (m : Image) : Image :=
  match m.dtype with
  | .u8 => m
  | .u16 => ⟨m.h, m.w, .u8, fun i j => normalize_u16_to_u8 (m.pix i j)⟩
  | .u32 => ⟨m.h, m.w, .u8, fun i j => normalize_u32_to_u8 (m.pix i j)⟩

/-! ## Xenium tier detection (`XeniumData._detect_tier`)

From `src/core/xenium_data.py`, lines 155-208.  For each companion
table the code checks file existence and then attempts the load inside
`try/except`; the availability flag becomes true exactly when the file
exists and the load raised nothing, and a warning is emitted when the
load raised.  The tier is 2 iff the three promoting flags
(`has_cells`, `has_boundaries`, `has_transcripts`) are all true. -/

/-- Outcome of one companion-table probe: the file is absent, or it
exists but its load raised, or it exists and loaded. -/
inductive TableLoad
  | absent
  | loadFailed
  | loaded
  deriving DecidableEq

/-- The five companion-table probe outcomes of a Xenium directory. -/
structure XeniumCompanions where
  cells : TableLoad
  boundaries : TableLoad
  transcripts : TableLoad
  genePanel : TableLoad
  metrics : TableLoad

/-- Availability flag produced by the probe: true iff the table existed
and loaded without error. -/
def tableFlag : TableLoad → Bool
  | .loaded => true
  | _ => false

/-- Warning emitted by one fail-soft probe (`warnings.warn` on a caught
load exception). -/
def tableWarn (t : TableLoad) (msg : String) : List String :=
  match t with
  | .loadFailed => [msg]
  | _ => []

/-- Result of `XeniumData._detect_tier`: the five availability flags,
the tier, and the warnings emitted along the way. -/
structure TierResult where
  has_cells : Bool
  has_boundaries : Bool
  has_transcripts : Bool
  has_gene_panel : Bool
  has_metrics : Bool
  tier : Nat
  warnings : List String
  deriving DecidableEq

/-- `XeniumData._detect_tier`, evaluated once at construction. -/
def detect_tier (c : XeniumCompanions) : TierResult :=
  let hc := tableFlag c.cells
  let hb := tableFlag c.boundaries
  let ht := tableFlag c.transcripts
  { has_cells := hc
    has_boundaries := hb
    has_transcripts := ht
    has_gene_panel := tableFlag c.genePanel
    has_metrics := tableFlag c.metrics
    tier := if hc && hb && ht then 2 else 1
    warnings :=
      tableWarn c.cells "Could not load cells data" ++
      tableWarn c.boundaries "Could not load cell boundaries" ++
      tableWarn c.transcripts "Could not load transcripts data" ++
      tableWarn c.genePanel "Could not load gene panel" ++
      tableWarn c.metrics "Could not load metrics" }

/-! ## `ImageProcessor.iou`

From `src/processors/image_processor.py`, lines 205-236: both masks are
cropped to `[:min h, :min w]` (top-left aligned), binarized at
`> 127`, and the result is the intersection count over the union count,
with an early `0.0` return when the union is empty.  Counts are over
the cropped index rectangle; the float ratio of two counts below `2^53`
is modelled exactly in `ℚ` (the comparisons of the spec — equality with
`0.0` and `1.0` — are exact in both models). -/

/-- Number of pixels of the shared top-left-aligned crop where both
masks are foreground after binarization at `> 127`. -/
def interCount (m1 m2 : Image) : Nat :=
  (((Finset.range (min m1.h m2.h)) ×ˢ (Finset.range (min m1.w m2.w))).filter
    fun p => 127 < m1.pix p.1 p.2 ∧ 127 < m2.pix p.1 p.2).card

/-- Number of pixels of the shared crop where at least one mask is
foreground after binarization at `> 127`. -/
def unionCount (m1 m2 : Image) : Nat :=
  (((Finset.range (min m1.h m2.h)) ×ˢ (Finset.range (min m1.w m2.w))).filter
    fun p => 127 < m1.pix p.1 p.2 ∨ 127 < m2.pix p.1 p.2).card

/-- `ImageProcessor.iou`. -/
def iou (m1 m2 : Image) : ℚ :=
  if unionCount m1 m2 = 0 then 0
  else (interCount m1 m2 : ℚ) / (unionCount m1 m2 : ℚ)

/-- `cv2.threshold(..., t, 255, cv2.THRESH_BINARY)`: pixelwise
`255` where the value strictly exceeds `t`, else `0`; same canvas. -/
def thresholdBinary (m : Image) (t : Nat) : Image :=
  ⟨m.h, m.w, .u8, fun i j => if t < m.pix i j then 255 else 0⟩

/-! ## `CircleDetector` post-filters and statistics

From `src/processors/circle_detector.py`.  A detected circle is a row
`(x, y, radius)`.  `filter_circles_by_distance` (lines 143-174) keeps
the first row and then, scanning in input order, rejects a row whose
center is at float distance `< min_distance` from some already-kept
center.  For integer centers and `min_distance < 2^26` the float
comparison `sqrt(dx^2 + dy^2) < d` is exactly the integer comparison
`dx^2 + dy^2 < d^2`, which is how it is modelled here. -/

/-- One circle row `(x, y, r)` as handled by the post-filters. -/
structure Circle where
  x : Int
  y : Int
  r : Int
  deriving DecidableEq

/-- Squared distance between two circle centers
(`(x1 - x2) ** 2 + (y1 - y2) ** 2` before the `np.sqrt`). -/
def dist2 (a b : Circle) : Int := (a.x - b.x) ^ 2 + (a.y - b.y) ^ 2

/-- The inner loop of `filter_circles_by_distance`: candidate `c` is
kept iff no already-accepted circle in `acc` is at distance `< d`. -/
def keepTest (acc : List Circle) (c : Circle) (d : Nat) : Bool :=
  acc.all fun a => decide (¬ dist2 c a < (d : Int) ^ 2)

/-- The accumulator loop of `filter_circles_by_distance` over the tail
of the input (`filtered` starts as `[circles[0]]`). -/
def filterAux (d : Nat) : List Circle → List Circle → List Circle
  | acc, [] => acc
  | acc, c :: rest =>
    if keepTest acc c d then filterAux d (acc ++ [c]) rest else filterAux d acc rest

/-- `CircleDetector.filter_circles_by_distance`.  `none` models a `None`
input array (returned unchanged, as is any input of length ≤ 1). -/
def filter_circles_by_distance (circles : Option (List Circle)) (d : Nat) :
    Option (List Circle) :=
  match circles with
  | none => none
  | some l =>
    if l.length ≤ 1 then some l
    else
      match l with
      | [] => some []
      | c :: rest => some (filterAux d [c] rest)

/-- `CircleDetector.get_circle_statistics` (lines 176-203).  The result
dictionary is modelled as an ordered key/value list.  Radius statistics
are exact rationals; the float square root that `np.std` applies to the
mean squared deviation is an opaque parameter `sq`. -/
def get_circle_statistics (sq : ℚ → ℚ) (circles : Option (List Circle)) :
    List (String × ℚ) :=
  match circles with
  | none =>
    [("count", 0), ("mean_radius", 0), ("min_radius", 0), ("max_radius", 0)]
  | some [] =>
    [("count", 0), ("mean_radius", 0), ("min_radius", 0), ("max_radius", 0)]
  | some (c :: rest) =>
    let radii : List ℚ := (c :: rest).map fun a => (a.r : ℚ)
    let n : ℚ := radii.length
    let mean : ℚ := radii.sum / n
    [("count", ((c :: rest).length : ℚ)),
     ("mean_radius", mean),
     ("min_radius", rest.foldl (fun acc a => min acc (a.r : ℚ)) (c.r : ℚ)),
     ("max_radius", rest.foldl (fun acc a => max acc (a.r : ℚ)) (c.r : ℚ)),
     ("std_radius", sq ((radii.map fun x => (x - mean) ^ 2).sum / n))]

/-! ## Mask engine (`src/processors/mask_generator.py` and the raster
primitives of `src/processors/image_processor.py` it calls)

The four strategy pipelines are modelled over 2-D planes (the scope of
the shape claims; the grayscale conversion branch for packed 3-channel
input is outside the model).  The opaque third-party algorithms are
collected in `CvLib` and quantified over. -/

/-- A connected component as returned by `cv2.findContours` /
`cv2.contourArea`: its reported area and the set of pixels that
`cv2.drawContours(..., -1, 255, -1)` fills for it. -/
structure Contour where
  area : Nat
  member : Nat → Nat → Bool

/-- A circle reported by `cv2.HoughCircles` (center and radius). -/
structure HCircle where
  x : Int
  y : Int
  r : Nat

/-- Opaque OpenCV algorithms, universally quantified in the theorems:
Otsu threshold selection, the Gaussian-weighted local threshold map of
`adaptiveThreshold`, the elliptical structuring-element offsets, contour
extraction, and the Hough circle search (arguments: `min_radius`,
`max_radius`, `param1`, `param2`, `min_dist`). -/
structure CvLib where
  otsuT : Image → Nat
  localT : Image → Nat → Nat → Int
  se : Nat → List (Int × Int)
  contours : Image → List Contour
  hough : Image → Nat → Nat → Nat → Nat → Nat → Option (List HCircle)

/-- The keyword-argument dictionary (`**kwargs`) of the mask-engine
entry points: a field is `none` when the key is absent, so that each
`kwargs.get(key, default)` is modelled by `Option.getD`. -/
structure MaskKw where
  threshold : Option Nat := none
  min_area : Option Nat := none
  max_area : Option Nat := none
  kernel_size : Option Nat := none
  dilate_iterations : Option Nat := none
  erode_iterations : Option Nat := none
  method : Option String := none
  min_radius : Option Nat := none
  max_radius : Option Nat := none
  param1 : Option Nat := none
  param2 : Option Nat := none
  min_dist : Option Nat := none

/-- Clamp an integer index into `[0, n)` (border replication of the
morphological kernels). -/
def clampIdx (n : Nat) (i : Int) : Nat := (max 0 (min i ((n : Int) - 1))).toNat

/-- Pixel access with replicated borders. -/
def pixAt (m : Image) (i j : Int) : Nat := m.pix (clampIdx m.h i) (clampIdx m.w j)

/-- One `cv2.dilate` step with the structuring element for kernel size
`k`: neighborhood maximum on the same canvas. -/
def dilate1 (lib : CvLib) (k : Nat) (m : Image) : Image :=
  ⟨m.h, m.w, m.dtype, fun i j =>
    (lib.se k).foldl (fun acc od => max acc (pixAt m ((i : Int) + od.1) ((j : Int) + od.2))) 0⟩

/-- One `cv2.erode` step: neighborhood minimum on the same canvas. -/
def erode1 (lib : CvLib) (k : Nat) (m : Image) : Image :=
  ⟨m.h, m.w, m.dtype, fun i j =>
    (lib.se k).foldl (fun acc od => min acc (pixAt m ((i : Int) + od.1) ((j : Int) + od.2))) 255⟩

/-- Iterate an image operation (`iterations` argument of the
morphology calls). -/
def iterOp (f : Image → Image) : Nat → Image → Image
  | 0, m => m
  | n + 1, m => iterOp f n (f m)

/-- `ImageProcessor.morphology`: dispatch on the operation name, with
the unknown-operation branch returning the input unchanged. -/
def morphology (lib : CvLib) (m : Image) (op : String) (k iters : Nat) : Image :=
  if op = "open" then iterOp (dilate1 lib k) iters (iterOp (erode1 lib k) iters m)
  else if op = "close" then iterOp (erode1 lib k) iters (iterOp (dilate1 lib k) iters m)
  else if op = "dilate" then iterOp (dilate1 lib k) iters m
  else if op = "erode" then iterOp (erode1 lib k) iters m
  else if op = "gradient" then
    ⟨m.h, m.w, m.dtype, fun i j =>
      (iterOp (dilate1 lib k) iters m).pix i j - (iterOp (erode1 lib k) iters m).pix i j⟩
  else m

/-- `ImageProcessor.binarize` on a 2-D plane: `otsu` uses the library
threshold selection, `adaptive` the local threshold map, any other
method name the fixed-threshold branch with default 127. -/
def binarize (lib : CvLib) (m : Image) (t : Option Nat) (method : String) : Image :=
  if method = "otsu" then thresholdBinary m (lib.otsuT m)
  else if method = "adaptive" then
    ⟨m.h, m.w, .u8, fun i j => if lib.localT m i j < (m.pix i j : Int) then 255 else 0⟩
  else thresholdBinary m (t.getD 127)

/-- `ImageProcessor.find_contours` followed by drawing the area-filtered
components on `np.zeros_like(image)` (the second returned value, which
is the mask the engine uses). -/
def find_contours_mask (lib : CvLib) (m : Image) (min_area max_area : Nat) : Image :=
  ⟨m.h, m.w, m.dtype, fun i j =>
    if ((lib.contours m).filter fun c => min_area ≤ c.area ∧ c.area ≤ max_area).any
        (fun c => c.member i j)
    then 255 else 0⟩

/-- `MaskGenerator.generate_contour_mask`: fixed-threshold binarize,
morphological close (`kernel_size`, `dilate_iterations`), then
area-filtered contour fill.  (`erode_iterations` is read by the source
but never used.) -/
def generate_contour_mask (lib : CvLib) (img : Image) (kw : MaskKw) : Image :=
  find_contours_mask lib
    (morphology lib (binarize lib img (some (kw.threshold.getD 10)) "binary")
      "close" (kw.kernel_size.getD 5) (kw.dilate_iterations.getD 1))
    (kw.min_area.getD 100) (kw.max_area.getD 1000000)

/-- `CircleDetector.create_mask_from_circles`: filled disks on an empty
canvas of the given shape. -/
def create_mask_from_circles (shape : Nat × Nat) (cs : List HCircle) : Image :=
  ⟨shape.1, shape.2, .u8, fun i j =>
    if cs.any fun c => ((j : Int) - c.x) ^ 2 + ((i : Int) - c.y) ^ 2 ≤ (c.r : Int) ^ 2
    then 255 else 0⟩

/-- `MaskGenerator.generate_visium_mask` on a 2-D plane: Hough circle
detection; zero circles (a `None` or empty result) falls back to the
contour method forwarding only the `threshold` keyword. -/
def generate_visium_mask (lib : CvLib) (img : Image) (kw : MaskKw) : Image :=
  match lib.hough img (kw.min_radius.getD 10) (kw.max_radius.getD 10)
      (kw.param1.getD 100) (kw.param2.getD 30) (kw.min_dist.getD 20) with
  | none => generate_contour_mask lib img { threshold := some (kw.threshold.getD 10) }
  | some [] => generate_contour_mask lib img { threshold := some (kw.threshold.getD 10) }
  | some cs => create_mask_from_circles (img.h, img.w) cs

/-- `MaskGenerator.generate_intensity_mask`: normalize `uint16` input to
8-bit, then binarize with the requested method (default `otsu`) and the
optional fixed threshold. -/
def generate_intensity_mask (lib : CvLib) (img : Image) (kw : MaskKw) : Image :=
  binarize lib (if img.dtype = .u16 then normalize_to_u8 img else img)
    kw.threshold (kw.method.getD "otsu")

/-- `MaskGenerator.generate_adaptive_mask` on a 2-D plane: normalize
`uint16` input, then adaptive binarization (the `kernel_size` keyword is
read by the source but never used). -/
def generate_adaptive_mask (lib : CvLib) (img : Image) : Image :=
  binarize lib (if img.dtype = .u16 then normalize_to_u8 img else img) none "adaptive"

/-- `MaskGenerator.generate_mask`: strategy dispatch; an unknown
`mask_type` raises `ValueError`. -/
def MaskGenerator_generate_mask (lib : CvLib) (img : Image) (mask_type : String)
    (kw : MaskKw) : Except String Image :=
  if mask_type = "visium" then .ok (generate_visium_mask lib img kw)
  else if mask_type = "contour" then .ok (generate_contour_mask lib img kw)
  else if mask_type = "intensity" then .ok (generate_intensity_mask lib img kw)
  else if mask_type = "adaptive" then .ok (generate_adaptive_mask lib img)
  else .error ("Unknown mask type: " ++ mask_type)

/-! ## `XeniumData.generate_mask` dispatch and the polygon fallback

From `src/core/xenium_data.py`, lines 338-423.  A cell-boundary row is
modelled by the shape of its `vertex_x`/`vertex_y` payload; rasterizing
a row raises (inside the single `try` around the drawing loop) exactly
when a used coordinate is non-numeric (`np.array` conversion fails) or
the zipped vertex list is empty (`cv2.fillPoly` rejects an empty point
array).  The outcome records which mask was produced and the warnings
emitted. -/

/-- One vertex coordinate: a numeric value or a non-numeric entry. -/
inductive BVal
  | intv (n : Int)
  | nonNumeric
  deriving DecidableEq

/-- The `vertex_x`/`vertex_y` payload of one cell-boundary row: columns
absent, present but not list-like (skipped by the `isinstance` check),
or a pair of coordinate lists. -/
inductive BoundaryRow
  | missingCols
  | nonListVals
  | lists (xs ys : List BVal)
  deriving DecidableEq

/-- Whether a vertex coordinate converts to `int32`. -/
def coordOk : BVal → Bool
  | .intv _ => true
  | .nonNumeric => false

/-- Whether drawing one boundary row raises nothing: skipped rows are
fine; a list-valued row needs a non-empty zipped vertex list of numeric
coordinates. -/
def rowRasterOk : BoundaryRow → Bool
  | .missingCols => true
  | .nonListVals => true
  | .lists xs ys =>
    let ps := xs.zip ys
    !ps.isEmpty && ps.all fun p => coordOk p.1 && coordOk p.2

/-- Which mask a Xenium `generate_mask` call produced. -/
inductive MaskKind
  | polygonMask
  | intensityMask
  deriving DecidableEq

/-- Result of a Xenium `generate_mask` call: the produced mask kind and
the warnings emitted on the way. -/
structure MaskOutcome where
  result : MaskKind
  warnings : List String
  deriving DecidableEq

/-- Warning of the `_generate_polygon_mask` guard. -/
def noBoundariesWarn : String :=
  "Cell boundaries not available, falling back to intensity mask"

/-- Warning of the `except` around the polygon-drawing loop. -/
def polygonErrorWarn : String :=
  "Error drawing polygons, falling back to intensity mask"

/-- `XeniumData._generate_polygon_mask`: guard on boundary
availability, then the drawing loop whose first raising row aborts to
the intensity fallback with a warning. -/
def generate_polygon_mask (has_boundaries : Bool)
    (rows : Option (List BoundaryRow)) : MaskOutcome :=
  match has_boundaries, rows with
  | false, _ => ⟨.intensityMask, [noBoundariesWarn]⟩
  | true, none => ⟨.intensityMask, [noBoundariesWarn]⟩
  | true, some rs =>
    if rs.all rowRasterOk then ⟨.polygonMask, []⟩
    else ⟨.intensityMask, [polygonErrorWarn]⟩

/-- The `auto` policy of `XeniumData.generate_mask`: polygon when tier
is 2 and boundaries are present, else intensity; an explicit method is
passed through unchanged. -/
def xenium_select_method (tier : Nat) (has_boundaries : Bool) (method : String) : String :=
  if method = "auto" then
    (if tier = 2 ∧ has_boundaries = true then "polygon" else "intensity")
  else method

/-- `XeniumData.generate_mask`: the polygon path is taken only when the
selected method is `polygon` and the dataset is tier 2 with boundaries;
every other selected method falls through to the intensity mask with no
warning. -/
def xenium_generate_mask (tier : Nat) (has_boundaries : Bool)
    (rows : Option (List BoundaryRow)) (method : String) : MaskOutcome :=
  if xenium_select_method tier has_boundaries method = "polygon" ∧
      tier = 2 ∧ has_boundaries = true
  then generate_polygon_mask has_boundaries rows
  else ⟨.intensityMask, []⟩

/-! ## Channel-name extraction loops (`_load_metadata`)

`XeniumData`/`OMETiffData` (per-page `try` around the whole XML parse,
placeholder `Channel_<i>` on absence or failure) and `PhenoCyclerData`
(placeholder `Biomarker_<i>`; on page 0 the resolution extraction runs
inside the same `try` *after* the biomarker name has already been
appended, so a failing `float(...)` there appends a second name for the
page). -/

/-- A page description as seen by the Xenium / OME-TIFF channel loop. -/
inductive PageDesc
  | noDesc
  | badXml
  | named (t : String)
  | unnamed
  deriving DecidableEq

/-- The single channel name the Xenium / OME-TIFF loop appends for page
`i`. -/
def xenPageName (i : Nat) : PageDesc → String
  | .named t => t
  | _ => "Channel_" ++ toString i

/-- The channel list built by `XeniumData._load_metadata` /
`OMETiffData._load_metadata` (when the container reports at least one
page, `num_channels` is set to the page count before this loop). -/
def xen_channels (pages : List PageDesc) : List String :=
  pages.enum.map fun p => xenPageName p.1 p.2

/-- Outcome of `float(res_elem.text)` on the PhenoCycler page-0
resolution element. -/
inductive ResParse
  | okVal (n : Int)
  | badText
  deriving DecidableEq

/-- A PhenoCycler page description: whether `ET.fromstring` succeeds,
the optional `Biomarker` element text, and the optional
`ScanProfile/ExperimentV4/Resolution_nm` parse outcome. -/
structure PhenoDesc where
  parses : Bool
  biomarker : Option String
  resolution : Option ResParse
  deriving DecidableEq

/-- The PhenoCycler positional placeholder name. -/
def phenoPlaceholder (i : Nat) : String := "Biomarker_" ++ toString i

/-- The channel names `PhenoCyclerData._load_metadata` appends for page
`i` (`none` models an absent/empty description).  On page 0, a
resolution text that fails `float(...)` raises after the biomarker name
was already appended, and the `except` handler appends the placeholder
as well. -/
def phenoPageNames (i : Nat) : Option PhenoDesc → List String
  | none => [phenoPlaceholder i]
  | some pd =>
    if pd.parses = false then [phenoPlaceholder i]
    else
      (match pd.biomarker with
        | some t => [t]
        | none => [phenoPlaceholder i]) ++
      (if i = 0 ∧ pd.resolution = some .badText then [phenoPlaceholder i] else [])

/-- The channel list built by `PhenoCyclerData._load_metadata` (when the
container reports a series, `num_channels` is set to the series page
count before this loop). -/
def pheno_channels (pages : List (Option PhenoDesc)) : List String :=
  (pages.enum.map fun p => phenoPageNames p.1 p.2).flatten

/-- `metadata['num_channels']` as recorded by
`PhenoCyclerData._load_metadata`. -/
def pheno_num_channels (pages : List (Option PhenoDesc)) : Nat := pages.length

/-! ## Format resolver (`src/core/data_factory.py`)

A path is a single file (identified by its lowercased final extension,
which is what `Path.suffix` yields), a directory (its `spatial`
subdirectory flag and its file names in enumeration order), or absent.
`Path.glob(pattern)` for the patterns used here is suffix matching over
the directory's files.  `ValueError` is the spec's
`UnsupportedFormatError`, `FileNotFoundError` its `NotFoundError`. -/

/-- A directory as the resolver inspects it. -/
structure DirListing where
  hasSpatialSubdir : Bool
  files : List String
  deriving DecidableEq

/-- A filesystem path argument to the resolver. -/
inductive FsPath
  | file (suffix : String)
  | dir (d : DirListing)
  | missing
  deriving DecidableEq

/-- The two fatal resolver errors. -/
inductive ResolverErr
  | notFound
  | unsupported
  deriving DecidableEq

/-- Suffix test on the character sequences of two strings (the meaning
of a `*.<ext>` glob pattern for a file name). -/
def strEndsWith (f suf : String) : Bool :=
  decide (f.data.reverse.take suf.data.length = suf.data.reverse)

/-- `Path.glob` for a fixed-suffix pattern, in directory order. -/
def globSuffix (d : DirListing) (suf : String) : List String :=
  d.files.filter fun f => strEndsWith f suf

/-- The proprietary-multiplex glob of the resolver
(`*.qptiff` then `*.qptif`). -/
def dirQptiffGlob (d : DirListing) : List String :=
  globSuffix d ".qptiff" ++ globSuffix d ".qptif"

/-- The generic multi-page container glob of the resolver
(`*.ome.tiff`, `*.ome.tif`, `*.tiff`, `*.tif`, concatenated in that
order; an `.ome.tif(f)` file matches twice, as in the source). -/
def dirTiffGlob (d : DirListing) : List String :=
  globSuffix d ".ome.tiff" ++ globSuffix d ".ome.tif" ++
  globSuffix d ".tiff" ++ globSuffix d ".tif"

/-- `detect_modality`. -/
def detect_modality : FsPath → Except ResolverErr String
  | .missing => .error .notFound
  | .file suf =>
    if suf = ".qptiff" ∨ suf = ".qptif" then .ok "phenocycler"
    else if suf = ".tiff" ∨ suf = ".tif" ∨ suf = ".ome.tiff" ∨ suf = ".ome.tif" then
      .ok "ometiff"
    else if suf = ".png" ∨ suf = ".jpg" ∨ suf = ".jpeg" then .ok "visium"
    else .error .unsupported
  | .dir d =>
    if d.hasSpatialSubdir then .ok "visium"
    else if dirQptiffGlob d ≠ [] then .ok "phenocycler"
    else if dirTiffGlob d ≠ [] then .ok "ometiff"
    else .error .unsupported

/-- Which adapter `create_spatial_data` constructs, together with the
globbed file passed to it (`none` = the original path argument). -/
inductive Created
  | visiumA
  | xeniumA
  | phenocyclerA (chosen : Option String)
  | ometiffA (chosen : Option String)
  deriving DecidableEq

/-- `create_spatial_data`: existence check, explicit-hint dispatch,
then file-extension dispatch, then directory-structure dispatch.  In
the directory branch the proprietary-multiplex check is nested inside
the branch requiring a non-empty generic tiff glob. -/
def create_spatial_data (p : FsPath) (modality : Option String) :
    Except ResolverErr Created :=
  match p, modality with
  | .missing, _ => .error .notFound
  | _, some m =>
    if m.toLower = "visium" then .ok .visiumA
    else if m.toLower = "xenium" then .ok .xeniumA
    else if m.toLower = "phenocycler" then .ok (.phenocyclerA none)
    else if m.toLower = "ometiff" then .ok (.ometiffA none)
    else .error .unsupported
  | .file suf, none =>
    if suf = ".qptiff" ∨ suf = ".qptif" then .ok (.phenocyclerA none)
    else if suf = ".tiff" ∨ suf = ".tif" ∨ suf = ".ome.tiff" ∨ suf = ".ome.tif" then
      .ok (.ometiffA none)
    else if suf = ".png" ∨ suf = ".jpg" ∨ suf = ".jpeg" then .ok .visiumA
    else .error .unsupported
  | .dir d, none =>
    if d.hasSpatialSubdir then .ok .visiumA
    else
      match dirTiffGlob d with
      | [] => .error .unsupported
      | t :: _ =>
        match dirQptiffGlob d with
        | q :: _ => .ok (.phenocyclerA (some q))
        | [] => .ok (.ometiffA (some t))

end LuadSpatial

namespace LuadSpatial

/-! # Theorems -/

/-- C1: for the Xenium dataset, the tier computed at construction is 2
(Full) iff the cell table, the cell-boundary table and the transcript
table each existed and loaded without error; any other combination gives
tier 1 (Minimal), and the two non-promoting enrichers (gene panel,
quality metrics) have no effect on the tier. -/
theorem xenium_tier_full_iff_three_tables (c : XeniumCompanions) :
    ((detect_tier c).tier = 2 ↔
      (c.cells = .loaded ∧ c.boundaries = .loaded ∧ c.transcripts = .loaded)) ∧
    ((detect_tier c).tier = 1 ↔
      ¬ (c.cells = .loaded ∧ c.boundaries = .loaded ∧ c.transcripts = .loaded)) ∧
    ((detect_tier c).has_cells = tableFlag c.cells ∧
      (detect_tier c).has_boundaries = tableFlag c.boundaries ∧
      (detect_tier c).has_transcripts = tableFlag c.transcripts) ∧
    (∀ g m : TableLoad,
      (detect_tier { c with genePanel := g, metrics := m }).tier = (detect_tier c).tier) := by
  obtain ⟨cc, cb, ct, cg, cm⟩ := c
  refine ⟨?_, ?_, ⟨rfl, rfl, rfl⟩, ?_⟩
  · cases cc <;> cases cb <;> cases ct <;> simp [detect_tier, tableFlag]
  · cases cc <;> cases cb <;> cases ct <;> simp [detect_tier, tableFlag]
  · intro g m
    simp [detect_tier]

/-! ### Circle-filter development lemmas -/

theorem dist2_nonneg (a b : Circle) : 0 ≤ dist2 a b :=
  add_nonneg (sq_nonneg _) (sq_nonneg _)

theorem keepTest_iff (acc : List Circle) (c : Circle) (d : Nat) :
    keepTest acc c d = true ↔ ∀ a ∈ acc, ¬ dist2 c a < (d : Int) ^ 2 := by
  simp [keepTest]

theorem filterAux_zero (l : List Circle) : ∀ acc, filterAux 0 acc l = acc ++ l := by
  induction l with
  | nil => intro acc; simp [filterAux]
  | cons c rest ih =>
    intro acc
    have hk : keepTest acc c 0 = true := by
      rw [keepTest_iff]
      intro a _
      have := dist2_nonneg c a
      simpa using by omega
    simp only [filterAux, hk, if_true]
    rw [ih]
    simp

theorem filterAux_shape (d : Nat) (l : List Circle) :
    ∀ acc, ∃ s, filterAux d acc l = acc ++ s ∧ s.Sublist l := by
  induction l with
  | nil => exact fun acc => ⟨[], by simp [filterAux], List.Sublist.refl _⟩
  | cons c rest ih =>
    intro acc
    by_cases hk : keepTest acc c d
    · obtain ⟨s, hs, hsub⟩ := ih (acc ++ [c])
      refine ⟨c :: s, ?_, hsub.cons₂ c⟩
      simp only [filterAux, hk, if_true]
      rw [hs, List.append_assoc]
      rfl
    · obtain ⟨s, hs, hsub⟩ := ih acc
      refine ⟨s, ?_, hsub.cons c⟩
      simp only [filterAux, hk, if_false]
      exact hs

theorem filterAux_pairwise (d : Nat) (l : List Circle) :
    ∀ acc, acc.Pairwise (fun a b => ¬ dist2 b a < (d : Int) ^ 2) →
      (filterAux d acc l).Pairwise (fun a b => ¬ dist2 b a < (d : Int) ^ 2) := by
  induction l with
  | nil => intro acc h; simpa [filterAux] using h
  | cons c rest ih =>
    intro acc hacc
    by_cases hk : keepTest acc c d
    · simp only [filterAux, hk, if_true]
      apply ih
      rw [List.pairwise_append]
      refine ⟨hacc, List.pairwise_singleton _ _, ?_⟩
      intro a ha b hb
      rw [List.mem_singleton] at hb
      subst hb
      exact (keepTest_iff acc b d).1 hk a ha
    · simp only [filterAux, hk, if_false]
      exact ih acc hacc

/-! ### Radius fold development lemmas -/

theorem foldl_qmin_spec (l : List Circle) : ∀ init : ℚ,
    (l.foldl (fun acc a => min acc (a.r : ℚ)) init ≤ init ∧
      ∀ a ∈ l, l.foldl (fun acc a => min acc (a.r : ℚ)) init ≤ (a.r : ℚ)) ∧
    (l.foldl (fun acc a => min acc (a.r : ℚ)) init = init ∨
      ∃ a ∈ l, l.foldl (fun acc a => min acc (a.r : ℚ)) init = (a.r : ℚ)) := by
  induction l with
  | nil => intro init; exact ⟨⟨le_refl _, by simp⟩, Or.inl rfl⟩
  | cons b t ih =>
    intro init
    have hfold : (b :: t).foldl (fun acc a => min acc (a.r : ℚ)) init =
        t.foldl (fun acc a => min acc (a.r : ℚ)) (min init (b.r : ℚ)) := rfl
    obtain ⟨⟨hle, hmem⟩, hat⟩ := ih (min init (b.r : ℚ))
    refine ⟨⟨?_, ?_⟩, ?_⟩
    · rw [hfold]; exact le_trans hle (min_le_left _ _)
    · intro a ha
      rw [List.mem_cons] at ha
      rcases ha with ha | ha
      · subst ha; rw [hfold]; exact le_trans hle (min_le_right _ _)
      · rw [hfold]; exact hmem a ha
    · rw [hfold]
      rcases hat with hat | ⟨a, ha, hat⟩
      · rcases le_total init (b.r : ℚ) with hc | hc
        · exact Or.inl (by rw [hat, min_eq_left hc])
        · exact Or.inr ⟨b, List.mem_cons_self _ _, by rw [hat, min_eq_right hc]⟩
      · exact Or.inr ⟨a, List.mem_cons_of_mem _ ha, hat⟩

theorem foldl_qmax_spec (l : List Circle) : ∀ init : ℚ,
    (init ≤ l.foldl (fun acc a => max acc (a.r : ℚ)) init ∧
      ∀ a ∈ l, (a.r : ℚ) ≤ l.foldl (fun acc a => max acc (a.r : ℚ)) init) ∧
    (l.foldl (fun acc a => max acc (a.r : ℚ)) init = init ∨
      ∃ a ∈ l, l.foldl (fun acc a => max acc (a.r : ℚ)) init = (a.r : ℚ)) := by
  induction l with
  | nil => intro init; exact ⟨⟨le_refl _, by simp⟩, Or.inl rfl⟩
  | cons b t ih =>
    intro init
    have hfold : (b :: t).foldl (fun acc a => max acc (a.r : ℚ)) init =
        t.foldl (fun acc a => max acc (a.r : ℚ)) (max init (b.r : ℚ)) := rfl
    obtain ⟨⟨hle, hmem⟩, hat⟩ := ih (max init (b.r : ℚ))
    refine ⟨⟨?_, ?_⟩, ?_⟩
    · rw [hfold]; exact le_trans (le_max_left _ _) hle
    · intro a ha
      rw [List.mem_cons] at ha
      rcases ha with ha | ha
      · subst ha; rw [hfold]; exact le_trans (le_max_right _ _) hle
      · rw [hfold]; exact hmem a ha
    · rw [hfold]
      rcases hat with hat | ⟨a, ha, hat⟩
      · rcases le_total init (b.r : ℚ) with hc | hc
        · exact Or.inr ⟨b, List.mem_cons_self _ _, by rw [hat, max_eq_right hc]⟩
        · exact Or.inl (by rw [hat, max_eq_left hc])
      · exact Or.inr ⟨a, List.mem_cons_of_mem _ ha, hat⟩

/-- C7: `filter_circles_by_distance` with `min_distance = 0` is the
identity on content and order; in general the filter keeps the first
circle, returns a sublist of the input (first-seen wins, never
re-ordering), every pair of surviving circles is at distance at least
`min_distance`, and a candidate is rejected exactly when some
already-accepted circle lies at distance `< min_distance`. -/
theorem filter_circles_by_distance_greedy (d : Nat) :
    (∀ l : List Circle, filter_circles_by_distance (some l) 0 = some l) ∧
    (∀ l : List Circle, ∃ s, filter_circles_by_distance (some l) d = some s ∧
      s.Sublist l ∧ s.head? = l.head?) ∧
    (∀ (l s : List Circle), filter_circles_by_distance (some l) d = some s →
      s.Pairwise fun a b => ¬ dist2 b a < (d : Int) ^ 2) ∧
    (∀ (acc : List Circle) (c : Circle) (rest : List Circle),
      filterAux d acc (c :: rest) =
        if ∃ a ∈ acc, dist2 c a < (d : Int) ^ 2 then filterAux d acc rest
        else filterAux d (acc ++ [c]) rest) := by
  refine ⟨?_, ?_, ?_, ?_⟩
  · intro l
    by_cases hlen : l.length ≤ 1
    · simp [filter_circles_by_distance, hlen]
    · match l with
      | [] => simp at hlen
      | c :: rest =>
        simp only [filter_circles_by_distance, hlen, if_false]
        rw [filterAux_zero]
        rfl
  · intro l
    by_cases hlen : l.length ≤ 1
    · exact ⟨l, by simp [filter_circles_by_distance, hlen], List.Sublist.refl _, rfl⟩
    · match l with
      | [] => simp at hlen
      | c :: rest =>
        obtain ⟨s, hs, hsub⟩ := filterAux_shape d rest [c]
        refine ⟨c :: s, ?_, hsub.cons₂ c, rfl⟩
        simp only [filter_circles_by_distance, hlen, if_false]
        rw [hs]
        rfl
  · intro l s hls
    by_cases hlen : l.length ≤ 1
    · simp only [filter_circles_by_distance, hlen, if_true, Option.some.injEq] at hls
      subst hls
      match l, hlen with
      | [], _ => exact List.Pairwise.nil
      | [a], _ => exact List.pairwise_singleton _ _
    · match l with
      | [] => simp at hlen
      | c :: rest =>
        simp only [filter_circles_by_distance, hlen, if_false, Option.some.injEq] at hls
        subst hls
        exact filterAux_pairwise d rest [c] (List.pairwise_singleton _ _)
  · intro acc c rest
    by_cases h : ∃ a ∈ acc, dist2 c a < (d : Int) ^ 2
    · have hk : keepTest acc c d = false := by
        rw [Bool.eq_false_iff, Ne, keepTest_iff]
        push_neg
        obtain ⟨a, ha, hlt⟩ := h
        exact ⟨a, ha, hlt⟩
      simp only [filterAux, hk, if_pos h]
      rfl
    · have hk : keepTest acc c d = true := by
        rw [keepTest_iff]
        intro a ha hlt
        exact h ⟨a, ha, hlt⟩
      simp only [filterAux, hk, if_neg h]
      rfl

/-- C7 witness: the greedy filter evaluated at a concrete input with
`min_distance = 3`: the middle circle (distance `√2` from the first) is
rejected, the far circle is kept, and the result is pairwise separated. -/
theorem filter_circles_by_distance_greedy_witness :
    filter_circles_by_distance
        (some [⟨0, 0, 1⟩, ⟨1, 1, 1⟩, ⟨10, 10, 1⟩]) 0 =
      some [⟨0, 0, 1⟩, ⟨1, 1, 1⟩, ⟨10, 10, 1⟩] ∧
    ([⟨0, 0, 1⟩, ⟨10, 10, 1⟩] : List Circle).Pairwise
      (fun a b => ¬ dist2 b a < ((3 : Nat) : Int) ^ 2) :=
  ⟨(filter_circles_by_distance_greedy 0).1 _,
    (filter_circles_by_distance_greedy 3).2.2.1
      [⟨0, 0, 1⟩, ⟨1, 1, 1⟩, ⟨10, 10, 1⟩] [⟨0, 0, 1⟩, ⟨10, 10, 1⟩] (by decide)⟩

/-- C6 counterexample: on an empty (or `None`) input,
`get_circle_statistics` returns a record with only four keys — the
`std_radius` field of the claim is absent. -/
theorem get_circle_statistics_empty_missing_std :
    ¬ ("std_radius" ∈ (get_circle_statistics id none).map Prod.fst) ∧
    ¬ ("std_radius" ∈ (get_circle_statistics id (some [])).map Prod.fst) := by
  constructor <;> decide

/-- C6 (amended): `get_circle_statistics` never raises (it is total);
an empty or `None` input yields a zeroed four-field record (`count`,
`mean_radius`, `min_radius`, `max_radius` — no `std_radius` key); a
non-empty input yields all five fields, where `count` is the number of
circles, `min_radius`/`max_radius` bound every radius and are attained,
`mean_radius` times the count is the radius sum, and `std_radius` is the
square root of the mean squared deviation. -/
theorem get_circle_statistics_fields (sq : ℚ → ℚ) (c : Circle) (rest : List Circle) :
    (get_circle_statistics sq none =
      [("count", 0), ("mean_radius", 0), ("min_radius", 0), ("max_radius", 0)] ∧
     get_circle_statistics sq (some []) =
      [("count", 0), ("mean_radius", 0), ("min_radius", 0), ("max_radius", 0)]) ∧
    (∃ mean mn mx sd : ℚ,
      get_circle_statistics sq (some (c :: rest)) =
        [("count", ((c :: rest).length : ℚ)), ("mean_radius", mean),
         ("min_radius", mn), ("max_radius", mx), ("std_radius", sd)] ∧
      (∀ a ∈ c :: rest, mn ≤ (a.r : ℚ) ∧ (a.r : ℚ) ≤ mx) ∧
      (∃ a ∈ c :: rest, mn = (a.r : ℚ)) ∧
      (∃ a ∈ c :: rest, mx = (a.r : ℚ)) ∧
      mean * ((c :: rest).length : ℚ) =
        (((c :: rest).map fun a => (a.r : ℚ)).sum) ∧
      sd = sq (((((c :: rest).map fun a => (a.r : ℚ)).map
          fun x => (x - mean) ^ 2).sum) / ((c :: rest).length : ℚ))) := by
  refine ⟨⟨rfl, rfl⟩, ?_⟩
  refine ⟨(((c :: rest).map fun a => (a.r : ℚ)).sum) / (((c :: rest).map
      fun a => (a.r : ℚ)).length : ℚ),
    rest.foldl (fun acc a => min acc (a.r : ℚ)) (c.r : ℚ),
    rest.foldl (fun acc a => max acc (a.r : ℚ)) (c.r : ℚ),
    sq (((((c :: rest).map fun a => (a.r : ℚ)).map fun x =>
        (x - (((c :: rest).map fun a => (a.r : ℚ)).sum) / (((c :: rest).map
          fun a => (a.r : ℚ)).length : ℚ)) ^ 2).sum) / (((c :: rest).map
            fun a => (a.r : ℚ)).length : ℚ)),
    rfl, ?_, ?_, ?_, ?_, ?_⟩
  · intro a ha
    obtain ⟨⟨hminle, hminmem⟩, _⟩ := foldl_qmin_spec rest (c.r : ℚ)
    obtain ⟨⟨hmaxle, hmaxmem⟩, _⟩ := foldl_qmax_spec rest (c.r : ℚ)
    rw [List.mem_cons] at ha
    rcases ha with ha | ha
    · subst ha; exact ⟨hminle, hmaxle⟩
    · exact ⟨hminmem a ha, hmaxmem a ha⟩
  · obtain ⟨_, hat⟩ := foldl_qmin_spec rest (c.r : ℚ)
    rcases hat with hat | ⟨a, ha, hat⟩
    · exact ⟨c, List.mem_cons_self _ _, hat⟩
    · exact ⟨a, List.mem_cons_of_mem _ ha, hat⟩
  · obtain ⟨_, hat⟩ := foldl_qmax_spec rest (c.r : ℚ)
    rcases hat with hat | ⟨a, ha, hat⟩
    · exact ⟨c, List.mem_cons_self _ _, hat⟩
    · exact ⟨a, List.mem_cons_of_mem _ ha, hat⟩
  · simp only [List.length_map]
    have hn : (((c :: rest).length : ℚ)) ≠ 0 := by
      rw [List.length_cons]
      exact_mod_cast Nat.succ_ne_zero rest.length
    exact div_mul_cancel₀ _ hn
  · simp only [List.length_map]

/-- C6 witness: the amended statistics theorem evaluated at the
concrete one-element input `[(0, 0, 7)]` (with the identity standing in
for the square-root routine). -/
theorem get_circle_statistics_fields_witness :
    get_circle_statistics id none =
      [("count", 0), ("mean_radius", 0), ("min_radius", 0), ("max_radius", 0)] ∧
    ∃ mean mn mx sd : ℚ,
      get_circle_statistics id (some [⟨0, 0, 7⟩]) =
        [("count", (1 : ℚ)), ("mean_radius", mean),
         ("min_radius", mn), ("max_radius", mx), ("std_radius", sd)] ∧
      mn = (7 : ℚ) := by
  obtain ⟨⟨hnone, -⟩, mean, mn, mx, sd, heq, -, hmn, -, -, -⟩ :=
    get_circle_statistics_fields id ⟨0, 0, 7⟩ []
  refine ⟨hnone, mean, mn, mx, sd, heq, ?_⟩
  obtain ⟨a, ha, hval⟩ := hmn
  rw [List.mem_singleton] at ha
  subst ha
  exact hval

/-! ### Shape development lemmas for the mask engine -/

theorem iterOp_shape (f : Image → Image) (hf : ∀ x, (f x).h = x.h ∧ (f x).w = x.w) :
    ∀ (n : Nat) (m : Image), (iterOp f n m).h = m.h ∧ (iterOp f n m).w = m.w := by
  intro n
  induction n with
  | zero => exact fun m => ⟨rfl, rfl⟩
  | succ k ih =>
    intro m
    exact ⟨((ih (f m)).1).trans (hf m).1, ((ih (f m)).2).trans (hf m).2⟩

theorem morphology_shape (lib : CvLib) (m : Image) (op : String) (k iters : Nat) :
    (morphology lib m op k iters).h = m.h ∧ (morphology lib m op k iters).w = m.w := by
  have hd : ∀ x : Image, (dilate1 lib k x).h = x.h ∧ (dilate1 lib k x).w = x.w :=
    fun x => ⟨rfl, rfl⟩
  have he : ∀ x : Image, (erode1 lib k x).h = x.h ∧ (erode1 lib k x).w = x.w :=
    fun x => ⟨rfl, rfl⟩
  unfold morphology
  split_ifs
  · obtain ⟨h1, w1⟩ := iterOp_shape _ he iters m
    obtain ⟨h2, w2⟩ := iterOp_shape _ hd iters (iterOp (erode1 lib k) iters m)
    exact ⟨h2.trans h1, w2.trans w1⟩
  · obtain ⟨h1, w1⟩ := iterOp_shape _ hd iters m
    obtain ⟨h2, w2⟩ := iterOp_shape _ he iters (iterOp (dilate1 lib k) iters m)
    exact ⟨h2.trans h1, w2.trans w1⟩
  · exact iterOp_shape _ hd iters m
  · exact iterOp_shape _ he iters m
  · exact ⟨rfl, rfl⟩
  · exact ⟨rfl, rfl⟩

theorem binarize_shape (lib : CvLib) (m : Image) (t : Option Nat) (method : String) :
    (binarize lib m t method).h = m.h ∧ (binarize lib m t method).w = m.w := by
  unfold binarize
  split_ifs <;> exact ⟨rfl, rfl⟩

theorem normalize_to_u8_shape (m : Image) :
    (normalize_to_u8 m).h = m.h ∧ (normalize_to_u8 m).w = m.w := by
  obtain ⟨h, w, dt, pix⟩ := m
  cases dt <;> exact ⟨rfl, rfl⟩

theorem generate_contour_mask_shape (lib : CvLib) (img : Image) (kw : MaskKw) :
    (generate_contour_mask lib img kw).h = img.h ∧
    (generate_contour_mask lib img kw).w = img.w := by
  obtain ⟨h1, w1⟩ := morphology_shape lib
    (binarize lib img (some (kw.threshold.getD 10)) "binary") "close"
    (kw.kernel_size.getD 5) (kw.dilate_iterations.getD 1)
  obtain ⟨h2, w2⟩ := binarize_shape lib img (some (kw.threshold.getD 10)) "binary"
  exact ⟨h1.trans h2, w1.trans w2⟩

theorem generate_visium_mask_shape (lib : CvLib) (img : Image) (kw : MaskKw) :
    (generate_visium_mask lib img kw).h = img.h ∧
    (generate_visium_mask lib img kw).w = img.w := by
  unfold generate_visium_mask
  cases hh : lib.hough img (kw.min_radius.getD 10) (kw.max_radius.getD 10)
      (kw.param1.getD 100) (kw.param2.getD 30) (kw.min_dist.getD 20) with
  | none => exact generate_contour_mask_shape lib img _
  | some cs =>
    cases cs with
    | nil => exact generate_contour_mask_shape lib img _
    | cons c rest => exact ⟨rfl, rfl⟩

theorem generate_intensity_mask_shape (lib : CvLib) (img : Image) (kw : MaskKw) :
    (generate_intensity_mask lib img kw).h = img.h ∧
    (generate_intensity_mask lib img kw).w = img.w := by
  have hbase : (if img.dtype = .u16 then normalize_to_u8 img else img).h = img.h ∧
      (if img.dtype = .u16 then normalize_to_u8 img else img).w = img.w := by
    split_ifs
    · exact normalize_to_u8_shape img
    · exact ⟨rfl, rfl⟩
  obtain ⟨hb, wb⟩ := binarize_shape lib
    (if img.dtype = .u16 then normalize_to_u8 img else img)
    kw.threshold (kw.method.getD "otsu")
  exact ⟨hb.trans hbase.1, wb.trans hbase.2⟩

theorem generate_adaptive_mask_shape (lib : CvLib) (img : Image) :
    (generate_adaptive_mask lib img).h = img.h ∧
    (generate_adaptive_mask lib img).w = img.w := by
  have hbase : (if img.dtype = .u16 then normalize_to_u8 img else img).h = img.h ∧
      (if img.dtype = .u16 then normalize_to_u8 img else img).w = img.w := by
    split_ifs
    · exact normalize_to_u8_shape img
    · exact ⟨rfl, rfl⟩
  obtain ⟨hb, wb⟩ := binarize_shape lib
    (if img.dtype = .u16 then normalize_to_u8 img else img) none "adaptive"
  exact ⟨hb.trans hbase.1, wb.trans hbase.2⟩

/-- C8: every mask-generation method of the engine (`visium`,
`contour`, `intensity`, `adaptive`) returns a mask with exactly the
height and width of the input plane, for every behaviour of the opaque
library algorithms; and when the circle method detects zero circles
(`None` or an empty array) it delegates to the contour method,
forwarding only the threshold keyword. -/
theorem MaskGenerator_generate_mask_shape (lib : CvLib) (img : Image) (kw : MaskKw) :
    (∀ mt ∈ (["visium", "contour", "intensity", "adaptive"] : List String),
      ∃ m, MaskGenerator_generate_mask lib img mt kw = .ok m ∧
        m.h = img.h ∧ m.w = img.w) ∧
    ((lib.hough img (kw.min_radius.getD 10) (kw.max_radius.getD 10) (kw.param1.getD 100)
        (kw.param2.getD 30) (kw.min_dist.getD 20) = none ∨
      lib.hough img (kw.min_radius.getD 10) (kw.max_radius.getD 10) (kw.param1.getD 100)
        (kw.param2.getD 30) (kw.min_dist.getD 20) = some []) →
      generate_visium_mask lib img kw =
        generate_contour_mask lib img { threshold := some (kw.threshold.getD 10) }) := by
  constructor
  · intro mt hmt
    simp only [List.mem_cons, List.not_mem_nil, or_false] at hmt
    rcases hmt with rfl | rfl | rfl | rfl
    · exact ⟨generate_visium_mask lib img kw, rfl,
        (generate_visium_mask_shape lib img kw).1, (generate_visium_mask_shape lib img kw).2⟩
    · exact ⟨generate_contour_mask lib img kw, rfl,
        (generate_contour_mask_shape lib img kw).1, (generate_contour_mask_shape lib img kw).2⟩
    · exact ⟨generate_intensity_mask lib img kw, rfl,
        (generate_intensity_mask_shape lib img kw).1, (generate_intensity_mask_shape lib img kw).2⟩
    · exact ⟨generate_adaptive_mask lib img, rfl,
        (generate_adaptive_mask_shape lib img).1, (generate_adaptive_mask_shape lib img).2⟩
  · rintro (hh | hh) <;> (unfold generate_visium_mask; rw [hh])

/-- C8 witness: the shape theorem evaluated at a concrete 2×3 plane,
the contour method, empty keyword arguments and a concrete trivial
library instantiation. -/
theorem MaskGenerator_generate_mask_shape_witness :
    ∃ m, MaskGenerator_generate_mask
        ⟨fun _ => 0, fun _ _ _ => 0, fun _ => [], fun _ => [], fun _ _ _ _ _ _ => none⟩
        ⟨2, 3, .u8, fun _ _ => 0⟩ "contour" {} = .ok m ∧ m.h = 2 ∧ m.w = 3 :=
  (MaskGenerator_generate_mask_shape
    ⟨fun _ => 0, fun _ _ _ => 0, fun _ => [], fun _ => [], fun _ _ _ _ _ _ => none⟩
    ⟨2, 3, .u8, fun _ _ => 0⟩ {}).1 "contour" (by decide)

/-- C2 counterexample: an explicit `polygon` request on a Minimal-tier
dataset does degrade to the intensity mask, but silently — the warning
list is empty, contradicting "emits a warning in every such degraded
case" (the warning is only emitted on the malformed-geometry path). -/
theorem xenium_explicit_polygon_minimal_silent :
    xenium_generate_mask 1 false none "polygon" =
      ⟨MaskKind.intensityMask, []⟩ ∧
    (xenium_generate_mask 1 false none "polygon").warnings = [] := by
  exact ⟨by decide, by decide⟩

/-- C2 (amended): an explicit `polygon` request on a dataset that is
not tier 2 with boundaries returns the intensity mask silently (no
warning, no exception); on a Full-tier dataset with boundary rows,
malformed geometry (a row with non-numeric or empty zipped vertex
coordinate lists) returns the intensity mask with a warning; and
well-formed rows produce the polygon mask. -/
theorem xenium_polygon_degrade (tier : Nat) (hb : Bool)
    (rows : Option (List BoundaryRow)) (rs : List BoundaryRow) :
    (tier ≠ 2 ∨ hb = false →
      xenium_generate_mask tier hb rows "polygon" = ⟨.intensityMask, []⟩) ∧
    ((∃ r ∈ rs, rowRasterOk r = false) →
      xenium_generate_mask 2 true (some rs) "polygon" =
        ⟨.intensityMask, [polygonErrorWarn]⟩) ∧
    (rs.all rowRasterOk = true →
      xenium_generate_mask 2 true (some rs) "polygon" = ⟨.polygonMask, []⟩) := by
  refine ⟨?_, ?_, ?_⟩
  · intro h
    unfold xenium_generate_mask
    apply if_neg
    rintro ⟨-, h2, h3⟩
    rcases h with h | h
    · exact h h2
    · rw [h] at h3
      exact Bool.noConfusion h3
  · rintro ⟨r, hr, hok⟩
    have hall : rs.all rowRasterOk = false := by
      cases hall : rs.all rowRasterOk with
      | false => rfl
      | true =>
        have := List.all_eq_true.mp hall r hr
        rw [hok] at this
        exact Bool.noConfusion this
    show (if rs.all rowRasterOk = true then (⟨.polygonMask, []⟩ : MaskOutcome)
        else ⟨.intensityMask, [polygonErrorWarn]⟩) = ⟨.intensityMask, [polygonErrorWarn]⟩
    apply if_neg
    intro hc
    rw [hall] at hc
    exact Bool.noConfusion hc
  · intro hall
    show (if rs.all rowRasterOk = true then (⟨.polygonMask, []⟩ : MaskOutcome)
        else ⟨.intensityMask, [polygonErrorWarn]⟩) = ⟨.polygonMask, []⟩
    exact if_pos hall

/-- C2 witness: the amended theorem evaluated at a Minimal-tier request
and at a Full-tier request with an empty vertex list. -/
theorem xenium_polygon_degrade_witness :
    xenium_generate_mask 1 true none "polygon" = ⟨.intensityMask, []⟩ ∧
    xenium_generate_mask 2 true (some [.lists [] []]) "polygon" =
      ⟨.intensityMask, [polygonErrorWarn]⟩ :=
  ⟨(xenium_polygon_degrade 1 true none []).1 (Or.inl (by decide)),
   (xenium_polygon_degrade 2 true none [.lists [] []]).2.1
     ⟨.lists [] [], by decide, by decide⟩⟩

/-- C10: `XeniumData.generate_mask` silently returns the intensity mask
(with no warning and no exception) for every method value other than
`auto` and `polygon` — including engine method names like `contour` —
whereas the engine dispatcher `MaskGenerator.generate_mask` raises
`ValueError` on any mask type outside its four known strategies. -/
theorem xenium_unknown_method_intensity :
    (∀ (tier : Nat) (hb : Bool) (rows : Option (List BoundaryRow)) (method : String),
      method ≠ "auto" → method ≠ "polygon" →
      xenium_generate_mask tier hb rows method = ⟨.intensityMask, []⟩) ∧
    (∀ (lib : CvLib) (img : Image) (kw : MaskKw) (mt : String),
      mt ∉ (["visium", "contour", "intensity", "adaptive"] : List String) →
      MaskGenerator_generate_mask lib img mt kw =
        .error ("Unknown mask type: " ++ mt)) := by
  constructor
  · intro tier hb rows method hauto hpoly
    unfold xenium_generate_mask
    apply if_neg
    rintro ⟨hsel, -, -⟩
    unfold xenium_select_method at hsel
    rw [if_neg hauto] at hsel
    exact hpoly hsel
  · intro lib img kw mt hmt
    simp only [List.mem_cons, List.not_mem_nil, or_false, not_or] at hmt
    obtain ⟨h1, h2, h3, h4⟩ := hmt
    unfold MaskGenerator_generate_mask
    rw [if_neg h1, if_neg h2, if_neg h3, if_neg h4]

/-- C10 witness: `contour` — an engine method name unknown to the
Xenium dispatcher — yields the intensity mask there, while the engine
dispatcher rejects the Xenium-only name `polygon` with the
unknown-mask-type error. -/
theorem xenium_unknown_method_intensity_witness :
    xenium_generate_mask 2 true none "contour" = ⟨.intensityMask, []⟩ ∧
    MaskGenerator_generate_mask
        ⟨fun _ => 0, fun _ _ _ => 0, fun _ => [], fun _ => [], fun _ _ _ _ _ _ => none⟩
        ⟨1, 1, .u8, fun _ _ => 0⟩ "polygon" {} =
      .error ("Unknown mask type: " ++ "polygon") :=
  ⟨xenium_unknown_method_intensity.1 2 true none "contour" (by decide) (by decide),
   xenium_unknown_method_intensity.2
     ⟨fun _ => 0, fun _ _ _ => 0, fun _ => [], fun _ => [], fun _ _ _ _ _ _ => none⟩
     ⟨1, 1, .u8, fun _ _ => 0⟩ {} "polygon" (by decide)⟩

/-! ### Channel-count development lemmas -/

theorem xen_channels_length (pages : List PageDesc) :
    (xen_channels pages).length = pages.length := by
  simp [xen_channels]

theorem phenoPageNames_length_one (i : Nat) (d : Option PhenoDesc)
    (h : ¬(i = 0 ∧ ∃ pd, d = some pd ∧ pd.parses = true ∧
      pd.resolution = some .badText)) :
    (phenoPageNames i d).length = 1 := by
  cases d with
  | none => rfl
  | some pd =>
    cases hp : pd.parses with
    | false => simp [phenoPageNames, hp]
    | true =>
      have hres : ¬(i = 0 ∧ pd.resolution = some .badText) := by
        rintro ⟨hi, hr⟩
        exact h ⟨hi, pd, rfl, hp, hr⟩
      simp only [phenoPageNames]
      rw [if_neg (by rw [hp]; simp), if_neg hres]
      cases pd.biomarker <;> simp

/-- C9: evaluating the PhenoCycler channel loop at a failing input — a
single-page container whose description parses, carries a `Biomarker`
name, and whose page-0 `Resolution_nm` text fails `float(...)` — the
code appends two channel names for the one page, so
`len(channels) = 2 ≠ 1 = metadata['num_channels']`, violating the
claimed invariant even though construction completes normally (the
exception is caught and only printed). -/
theorem pheno_channel_count_mismatch :
    pheno_channels [some ⟨true, some "DAPI", some .badText⟩] =
      ["DAPI", "Biomarker_0"] ∧
    pheno_num_channels [some ⟨true, some "DAPI", some .badText⟩] = 1 ∧
    (pheno_channels [some ⟨true, some "DAPI", some .badText⟩]).length ≠
      pheno_num_channels [some ⟨true, some "DAPI", some .badText⟩] := by
  exact ⟨by decide, by decide, by decide⟩

/-- C3: `iou` works on the shared top-left-aligned crop (it depends only
on pixels inside the `min`-height by `min`-width rectangle), binarizes
at the 8-bit midpoint (it is invariant under the `> 127` binarization),
returns intersection over union when the union is non-empty, returns
exactly `0` when the union is empty (no division error), returns `1` on
`iou m m` for every mask with some foreground pixel in bounds, and
returns `0` for disjoint masks. -/
theorem iou_spec (m1 m2 : Image) :
    (∀ n1 n2 : Image, n1.h = m1.h → n1.w = m1.w → n2.h = m2.h → n2.w = m2.w →
      (∀ i j, i < min m1.h m2.h → j < min m1.w m2.w →
        n1.pix i j = m1.pix i j ∧ n2.pix i j = m2.pix i j) →
      iou n1 n2 = iou m1 m2) ∧
    iou (thresholdBinary m1 127) (thresholdBinary m2 127) = iou m1 m2 ∧
    (unionCount m1 m2 ≠ 0 →
      iou m1 m2 * (unionCount m1 m2 : ℚ) = (interCount m1 m2 : ℚ)) ∧
    (unionCount m1 m2 = 0 → iou m1 m2 = 0) ∧
    (∀ m : Image, (∃ i, i < m.h ∧ ∃ j, j < m.w ∧ 127 < m.pix i j) → iou m m = 1) ∧
    (interCount m1 m2 = 0 → iou m1 m2 = 0) := by
  refine ⟨?_, ?_, ?_, ?_, ?_, ?_⟩
  · intro n1 n2 h1h h1w h2h h2w hpix
    have hInter : interCount n1 n2 = interCount m1 m2 := by
      unfold interCount
      rw [h1h, h1w, h2h, h2w]
      congr 1
      apply Finset.filter_congr
      intro x hx
      rw [Finset.mem_product, Finset.mem_range, Finset.mem_range] at hx
      obtain ⟨hpx, hqx⟩ := hpix x.1 x.2 hx.1 hx.2
      rw [hpx, hqx]
    have hUnion : unionCount n1 n2 = unionCount m1 m2 := by
      unfold unionCount
      rw [h1h, h1w, h2h, h2w]
      congr 1
      apply Finset.filter_congr
      intro x hx
      rw [Finset.mem_product, Finset.mem_range, Finset.mem_range] at hx
      obtain ⟨hpx, hqx⟩ := hpix x.1 x.2 hx.1 hx.2
      rw [hpx, hqx]
    rw [iou, iou, hInter, hUnion]
  · have hbin : ∀ (m : Image) (i j : Nat),
        (127 < (thresholdBinary m 127).pix i j) ↔ 127 < m.pix i j := by
      intro m i j
      show (127 < if 127 < m.pix i j then 255 else 0) ↔ _
      by_cases h : 127 < m.pix i j <;> simp [h]
    have hInter : interCount (thresholdBinary m1 127) (thresholdBinary m2 127) =
        interCount m1 m2 := by
      unfold interCount
      congr 1
      apply Finset.filter_congr
      intro x _
      rw [hbin m1, hbin m2]
    have hUnion : unionCount (thresholdBinary m1 127) (thresholdBinary m2 127) =
        unionCount m1 m2 := by
      unfold unionCount
      congr 1
      apply Finset.filter_congr
      intro x _
      rw [hbin m1, hbin m2]
    rw [iou, iou, hInter, hUnion]
  · intro hu
    rw [iou, if_neg hu]
    exact div_mul_cancel₀ _ (Nat.cast_ne_zero.mpr hu)
  · intro hu
    rw [iou, if_pos hu]
  · rintro m ⟨i, hi, j, hj, hfg⟩
    have hiu : interCount m m = unionCount m m := by
      unfold interCount unionCount
      congr 1
      apply Finset.filter_congr
      intro x _
      exact ⟨fun h => Or.inl h.1, fun h => by rcases h with h | h <;> exact ⟨h, h⟩⟩
    have hmem : (i, j) ∈ ((Finset.range (min m.h m.h)) ×ˢ
        (Finset.range (min m.w m.w))).filter
          (fun p => 127 < m.pix p.1 p.2 ∨ 127 < m.pix p.1 p.2) := by
      rw [Finset.mem_filter, Finset.mem_product, Finset.mem_range, Finset.mem_range,
        Nat.min_self, Nat.min_self]
      exact ⟨⟨hi, hj⟩, Or.inl hfg⟩
    have hu : unionCount m m ≠ 0 := by
      unfold unionCount
      exact Finset.card_ne_zero_of_mem hmem
    rw [iou, if_neg hu, hiu]
    exact div_self (Nat.cast_ne_zero.mpr hu)
  · intro hi
    by_cases hu : unionCount m1 m2 = 0
    · rw [iou, if_pos hu]
    · rw [iou, if_neg hu, hi]
      simp

/-- C3 witness: `iou` evaluated at concrete 2×2 masks — a mask with one
foreground pixel against itself gives `1`, against a disjoint one-pixel
mask gives `0`, and two all-background masks (empty union) give `0`. -/
theorem iou_spec_witness :
    iou (⟨2, 2, .u8, fun i j => if i = 0 ∧ j = 0 then 200 else 0⟩ : Image)
        (⟨2, 2, .u8, fun i j => if i = 0 ∧ j = 0 then 200 else 0⟩ : Image) = 1 ∧
    iou (⟨2, 2, .u8, fun i j => if i = 0 ∧ j = 0 then 200 else 0⟩ : Image)
        (⟨2, 2, .u8, fun i j => if i = 1 ∧ j = 1 then 200 else 0⟩ : Image) = 0 ∧
    iou (⟨2, 2, .u8, fun _ _ => 0⟩ : Image) (⟨2, 2, .u8, fun _ _ => 0⟩ : Image) = 0 := by
  refine ⟨?_, ?_, ?_⟩
  · exact (iou_spec (⟨2, 2, .u8, fun i j => if i = 0 ∧ j = 0 then 200 else 0⟩ : Image)
      (⟨2, 2, .u8, fun i j => if i = 0 ∧ j = 0 then 200 else 0⟩ : Image)).2.2.2.2.1
      (⟨2, 2, .u8, fun i j => if i = 0 ∧ j = 0 then 200 else 0⟩ : Image)
      ⟨0, by decide, 0, by decide, by decide⟩
  · exact (iou_spec (⟨2, 2, .u8, fun i j => if i = 0 ∧ j = 0 then 200 else 0⟩ : Image)
      (⟨2, 2, .u8, fun i j => if i = 1 ∧ j = 1 then 200 else 0⟩ : Image)).2.2.2.2.2
      (by decide)
  · exact (iou_spec (⟨2, 2, .u8, fun _ _ => 0⟩ : Image)
      (⟨2, 2, .u8, fun _ _ => 0⟩ : Image)).2.2.2.1 (by decide)

/-- C5 counterexample: a directory containing only `.qptiff` files (no
`spatial` subdirectory, no generic tiff files) resolves to the
multiplex variant under `detect_modality`, but `create_spatial_data`
raises `UnsupportedFormatError` on it — its proprietary-multiplex check
is reachable only when the generic tiff glob is non-empty, so the two
cited functions do not follow one fixed priority. -/
theorem create_spatial_data_qptiff_only_dir_unsupported :
    create_spatial_data (.dir ⟨false, ["sample.qptiff"]⟩) none =
      .error .unsupported ∧
    detect_modality (.dir ⟨false, ["sample.qptiff"]⟩) = .ok "phenocycler" := by
  exact ⟨rfl, rfl⟩

/-- C5 (amended): for a directory without a modality hint,
`detect_modality` follows the claimed fixed priority (`spatial`
subdirectory ⇒ Visium; else any `.qptiff`/`.qptif` ⇒ PhenoCycler; else
any generic tiff ⇒ OMETiff; else `UnsupportedFormatError`), while
`create_spatial_data` first requires a non-empty generic tiff glob —
within it a `.qptiff` match wins (first match), else the first generic
tiff is used — and fails with `UnsupportedFormatError` whenever the
generic tiff glob is empty, even if `.qptiff` files are present. -/
theorem resolver_directory_priority (d : DirListing) :
    (d.hasSpatialSubdir = true →
      detect_modality (.dir d) = .ok "visium" ∧
      create_spatial_data (.dir d) none = .ok .visiumA) ∧
    (d.hasSpatialSubdir = false → dirQptiffGlob d ≠ [] →
      detect_modality (.dir d) = .ok "phenocycler") ∧
    (d.hasSpatialSubdir = false → dirQptiffGlob d = [] → dirTiffGlob d ≠ [] →
      detect_modality (.dir d) = .ok "ometiff") ∧
    (d.hasSpatialSubdir = false → dirQptiffGlob d = [] → dirTiffGlob d = [] →
      detect_modality (.dir d) = .error .unsupported) ∧
    (d.hasSpatialSubdir = false → dirTiffGlob d = [] →
      create_spatial_data (.dir d) none = .error .unsupported) ∧
    (∀ t ts q qs, d.hasSpatialSubdir = false → dirTiffGlob d = t :: ts →
      dirQptiffGlob d = q :: qs →
      create_spatial_data (.dir d) none = .ok (.phenocyclerA (some q))) ∧
    (∀ t ts, d.hasSpatialSubdir = false → dirTiffGlob d = t :: ts →
      dirQptiffGlob d = [] →
      create_spatial_data (.dir d) none = .ok (.ometiffA (some t))) := by
  refine ⟨?_, ?_, ?_, ?_, ?_, ?_, ?_⟩
  · intro hsp
    constructor
    · show (if d.hasSpatialSubdir = true then Except.ok "visium"
          else if dirQptiffGlob d ≠ [] then Except.ok "phenocycler"
          else if dirTiffGlob d ≠ [] then Except.ok "ometiff"
          else Except.error ResolverErr.unsupported) = Except.ok "visium"
      rw [if_pos hsp]
    · show (if d.hasSpatialSubdir = true then Except.ok Created.visiumA
          else match dirTiffGlob d with
            | [] => Except.error ResolverErr.unsupported
            | t :: _ =>
              match dirQptiffGlob d with
              | q :: _ => Except.ok (Created.phenocyclerA (some q))
              | [] => Except.ok (Created.ometiffA (some t))) = Except.ok Created.visiumA
      rw [if_pos hsp]
  · intro hsp hq
    show (if d.hasSpatialSubdir = true then Except.ok "visium"
        else if dirQptiffGlob d ≠ [] then Except.ok "phenocycler"
        else if dirTiffGlob d ≠ [] then Except.ok "ometiff"
        else Except.error ResolverErr.unsupported) = Except.ok "phenocycler"
    rw [if_neg (by rw [hsp]; simp), if_pos hq]
  · intro hsp hq ht
    show (if d.hasSpatialSubdir = true then Except.ok "visium"
        else if dirQptiffGlob d ≠ [] then Except.ok "phenocycler"
        else if dirTiffGlob d ≠ [] then Except.ok "ometiff"
        else Except.error ResolverErr.unsupported) = Except.ok "ometiff"
    rw [if_neg (by rw [hsp]; simp), if_neg (by rw [hq]; simp), if_pos ht]
  · intro hsp hq ht
    show (if d.hasSpatialSubdir = true then Except.ok "visium"
        else if dirQptiffGlob d ≠ [] then Except.ok "phenocycler"
        else if dirTiffGlob d ≠ [] then Except.ok "ometiff"
        else Except.error ResolverErr.unsupported) = Except.error ResolverErr.unsupported
    rw [if_neg (by rw [hsp]; simp), if_neg (by rw [hq]; simp), if_neg (by rw [ht]; simp)]
  · intro hsp ht
    show (if d.hasSpatialSubdir = true then Except.ok Created.visiumA
        else match dirTiffGlob d with
          | [] => Except.error ResolverErr.unsupported
          | t :: _ =>
            match dirQptiffGlob d with
            | q :: _ => Except.ok (Created.phenocyclerA (some q))
            | [] => Except.ok (Created.ometiffA (some t))) =
      Except.error ResolverErr.unsupported
    rw [if_neg (by rw [hsp]; simp), ht]
  · intro t ts q qs hsp ht hq
    show (if d.hasSpatialSubdir = true then Except.ok Created.visiumA
        else match dirTiffGlob d with
          | [] => Except.error ResolverErr.unsupported
          | t :: _ =>
            match dirQptiffGlob d with
            | q :: _ => Except.ok (Created.phenocyclerA (some q))
            | [] => Except.ok (Created.ometiffA (some t))) =
      Except.ok (Created.phenocyclerA (some q))
    rw [if_neg (by rw [hsp]; simp), ht, hq]
  · intro t ts hsp ht hq
    show (if d.hasSpatialSubdir = true then Except.ok Created.visiumA
        else match dirTiffGlob d with
          | [] => Except.error ResolverErr.unsupported
          | t :: _ =>
            match dirQptiffGlob d with
            | q :: _ => Except.ok (Created.phenocyclerA (some q))
            | [] => Except.ok (Created.ometiffA (some t))) =
      Except.ok (Created.ometiffA (some t))
    rw [if_neg (by rw [hsp]; simp), ht, hq]

/-- C5 witness: the amended resolver theorem evaluated at concrete
directories — a qptiff-only directory (detected as PhenoCycler by
`detect_modality`) and a mixed directory where `create_spatial_data`
picks the first qptiff file. -/
theorem resolver_directory_priority_witness :
    detect_modality (.dir ⟨false, ["sample.qptiff"]⟩) = .ok "phenocycler" ∧
    create_spatial_data (.dir ⟨false, ["a.qptiff", "b.ome.tif"]⟩) none =
      .ok (.phenocyclerA (some "a.qptiff")) :=
  ⟨(resolver_directory_priority ⟨false, ["sample.qptiff"]⟩).2.1 rfl (by decide),
   (resolver_directory_priority ⟨false, ["a.qptiff", "b.ome.tif"]⟩).2.2.2.2.2.1
     "b.ome.tif" ["b.ome.tif"] "a.qptiff" [] rfl (by decide) (by decide)⟩

/-- C4 counterexample: the claim "normalize from a 32-bit image to 8-bit
maps every pixel value `v` to `floor (v / 65536)` exactly, the result
being a valid 8-bit value" fails at `v = 2^24`: there
`floor (v / 65536) = 256`, which is not an 8-bit value, and the
truncating cast of the code yields 0 instead. -/
theorem normalize_u32_overflow_counterexample :
    normalize_u32_to_u8 16777216 = 0 ∧
    16777216 / 65536 = 256 ∧
    normalize_u32_to_u8 16777216 ≠ 16777216 / 65536 ∧ ¬ (16777216 / 65536 < 256) := by
  refine ⟨by decide, by decide, by decide, by decide⟩

/-- C4 (amended): 16-bit to 8-bit normalization is exact floor division
by 256 (always a valid 8-bit value); 32-bit to 8-bit normalization
computes `floor (v / 65536)` reduced by the wrapping 8-bit cast, and it
equals `floor (v / 65536)` exactly iff `v < 2^24`. -/
theorem normalize_exact_division (v : Nat) (hv : v < 65536) (u : Nat) (hu : u < 4294967296) :
    (normalize_u16_to_u8 v = v / 256 ∧ v / 256 < 256) ∧
    normalize_u32_to_u8 u = (u / 65536) % 256 ∧
    (normalize_u32_to_u8 u = u / 65536 ↔ u < 16777216) := by
  have h256 : v / 256 < 256 := Nat.div_lt_of_lt_mul (by omega)
  refine ⟨⟨?_, h256⟩, rfl, ?_⟩
  · simp [normalize_u16_to_u8, Nat.mod_eq_of_lt h256]
  · constructor
    · intro h
      have hlt : u / 65536 < 256 := by
        have := Nat.mod_lt (u / 65536) (show 0 < 256 by decide)
        rw [normalize_u32_to_u8] at h
        omega
      have := (Nat.div_lt_iff_lt_mul (show 0 < 65536 by decide)).1 hlt
      omega
    · intro h
      have hlt : u / 65536 < 256 :=
        Nat.div_lt_of_lt_mul (by omega)
      simp [normalize_u32_to_u8, Nat.mod_eq_of_lt hlt]

/-- C4 witness: the amended normalization theorem evaluated at
`v = 513` (16-bit) and `u = 131072` (32-bit, in the exact range). -/
theorem normalize_exact_division_witness :
    (normalize_u16_to_u8 513 = 513 / 256 ∧ 513 / 256 < 256) ∧
    normalize_u32_to_u8 131072 = (131072 / 65536) % 256 ∧
    (normalize_u32_to_u8 131072 = 131072 / 65536 ↔ 131072 < 16777216) :=
  normalize_exact_division 513 (by decide) 131072 (by decide)

end LuadSpatial
